import Mathlib

/-!
# etherquery: the node's startup shell and the batch flush policy

A shallow embedding of `main.go` of the etherquery node binary: `init`, `main`,
`makeDefaultExtra` and `startNode`.  The functions of `main.go` are glue around
libraries (the command-line library, the node stack, the logger, the RLP encoder).
A library call is embedded as an event appended to the trace of the run, and what the
call returns is taken from an explicit parameter, so every theorem holds for whatever
the library answers.  A library call returns to its caller, three calls apart: the
process can end inside `app.Run` and inside `utils.StartNode` (each is a parameter that
says whether the call returns), and `utils.Fatalf` never returns.  Two library calls
get a fixed meaning, the one their own documentation gives them:

* `utils.Fatalf` prints its message and ends the process with `os.Exit(1)`, so the
  statements after it are not executed;
* `glog.V(level)` is a boolean, true when the logger's verbosity admits `level`, and the
  print methods on it write an entry only when it is true.

Go strings whose bytes are sliced are lists of bytes; the other strings (flag names,
messages, the text of an error) are Lean strings.
-/

namespace Etherquery

/-! ## Go values -/

/-- A Go `error` that is not nil, as the text its `Error()` method returns.  A value of
type `error` is an `Option Error`, `none` for nil. -/
abbrev Error := String

/-- A Go string as the sequence of its bytes. -/
abbrev GoString := List UInt8

/-- The bytes of a string constant (UTF-8, as in a Go source file). -/
def goBytes (s : String) : GoString := s.data.flatMap String.utf8EncodeChar

/-- The slice expression `s[:hi]` on a Go string: it is out of range, and panics at
run time, when `hi > len(s)`. -/
def sliceTo (s : GoString) (hi : Nat) : Option GoString :=
  if hi ≤ s.length then some (s.take hi) else none

/-- A Go byte slice: `none` is the nil slice. -/
abbrev Bytes := Option (List UInt8)

/-- The builtin `len` on a byte slice; `len(nil)` is 0. -/
def len : Bytes → Nat
  | none => 0
  | some bs => bs.length

/-- The type `time.Duration`: a count of nanoseconds. -/
abbrev Duration := Int

/-- The constant `time.Second`. -/
def Second : Duration := 1000000000

/-- How `fmt` expands a format whose only verbs are `%v`, each taking the next operand
(already rendered as text: an error prints as its `Error()` text); a `%v` without an
operand prints as `%!v(MISSING)`. -/
def sprintfV : List Char → List String → List Char
  | '%' :: 'v' :: rest, a :: args => a.data ++ sprintfV rest args
  | '%' :: 'v' :: rest, [] => "%!v(MISSING)".data ++ sprintfV rest []
  | c :: rest, args => c :: sprintfV rest args
  | [], _ => []

/-- The function `fmt.Sprintf` on formats with `%v` verbs. -/
def Sprintf (format : String) (args : List String) : String :=
  String.mk (sprintfV format.data args)

/-! ## Constants of `main.go` -/

def ClientIdentifier : String := "Geth-etherquery"
def Version : String := "1.5.0-unstable"
def VersionMajor : Nat := 1
def VersionMinor : Nat := 5
def VersionPatch : Nat := 0
def VersionOracle : String := "0xfa7b9770ca4cb04296cac84f37736d4041251cdf"

/-! ## The command-line library -/

/-- A flag declaration of the command-line library.  `StringFlag` and `IntFlag` are the
two kinds `main.go` declares itself (an omitted `Value` is the zero value); `LibFlag`
stands for a flag declared by go-ethereum's `utils` package, of whatever kind, with the
text of its default value. -/
inductive Flag where
  | StringFlag (Name Usage Value : String)
  | IntFlag (Name Usage : String) (Value : Int)
  | LibFlag (Name DefValue : String)
  deriving DecidableEq, Repr

/-- The name under which a flag is defined in the flag set. -/
def Flag.name : Flag → String
  | .StringFlag n _ _ => n
  | .IntFlag n _ _ => n
  | .LibFlag n _ => n

/-- The text of a flag's value while the command line has not set it. -/
def Flag.defaultText : Flag → String
  | .StringFlag _ _ v => v
  | .IntFlag _ _ v => toString v
  | .LibFlag _ d => d

/-- The library's lookup of a global flag as a string, over the flag set made of the
declarations `flags` after the command line `args` (name and value text of every flag it
gives, in order) was parsed: the empty string for a name no flag defines, the text given
last on the command line if any, and the declared default otherwise. -/
def lookupGlobalString (flags : List Flag) (args : List (String × String))
    (name : String) : String :=
  match flags.find? (fun f => f.name == name) with
  | none => ""
  | some f =>
    match args.reverse.lookup name with
    | some text => text
    | none => f.defaultText

/-- The accessors of `*cli.Context` that `main.go` calls. -/
structure Context where
  GlobalString : String → String
  GlobalBool : String → Bool
  GlobalInt : String → Int

/-- The context the library hands to the action for the declarations `flags` and the
command line `args`; the typed accessors, which parse the value text, stay parameters. -/
def cliContext (flags : List Flag) (args : List (String × String))
    (globalBool : String → Bool) (globalInt : String → Int) : Context :=
  { GlobalString := lookupGlobalString flags args
    GlobalBool := globalBool
    GlobalInt := globalInt }

/-! ## `init` -/

/-- A run-time panic of the Go program. -/
inductive Panic where
  | sliceBounds (hi length : Nat)
  deriving DecidableEq, Repr

/-- The package variables `init` assigns that the rest of this development reads. -/
structure Globals where
  nodeNameVersion : GoString
  appFlags : List Flag
  deriving DecidableEq

/-- The flags `init` appends to the library's own (`utilsFlags`, the `utils.*Flag` entries
of the literal) when it assigns `app.Flags`. -/
def ownFlags : List Flag :=
  [ Flag.StringFlag "gcpproject" "GCP project ID" "etherquery",
    Flag.StringFlag "dataset" "BigQuery dataset ID" "ethereum",
    Flag.IntFlag "blocksrev" "blocks service revision number" 0 ]

/-- The function `init`, for the linker-set `gitCommit`: the node name version and the
flag list (`app.Flags = append(app.Flags)` leaves the list as it is).  The slice
expression `gitCommit[:8]` panics when it is out of range. -/
def init (utilsFlags : List Flag) (gitCommit : GoString) : Except Panic Globals :=
  let version : Except Panic GoString :=
    if gitCommit = [] then
      .ok (goBytes Version)
    else
      match sliceTo gitCommit 8 with
      | some short => .ok (goBytes Version ++ goBytes "-" ++ short)
      | none => .error (Panic.sliceBounds 8 gitCommit.length)
  match version with
  | .error p => .error p
  | .ok v => .ok { nodeNameVersion := v, appFlags := utilsFlags ++ ownFlags }

/-! ## `startNode` -/

/-- Modelled from the spec: the declaration of `etherquery.EtherQueryConfig` is not in
the sources; these are the spec's Configuration fields (project identifier, dataset
identifier, batch flush interval, batch flush size) under the names the composite
literal in `startNode` gives them. -/
structure EtherQueryConfig where
  Project : String
  Dataset : String
  BatchInterval : Duration
  BatchSize : Int
  deriving DecidableEq, Repr

/-- The names of the three `utils` flags `startNode` reads. -/
structure Utils where
  MiningEnabledFlag : String
  MinerThreadsFlag : String
  MiningGPUFlag : String

/-- The kinds of call `startNode` makes. -/
inductive Call where
  | Register | Fatalf | StartNode | Service | StartMining
  deriving DecidableEq, Repr

/-- A call made by `startNode`, with its arguments; `κ` is the type of service
constructors. -/
inductive Event (κ : Type) where
  | Register (constructor : κ)
  | Fatalf (message : String)
  | StartNode
  | Service
  | StartMining (threads : Int) (gpus : String)

/-- The kind of a call. -/
def Event.call {κ : Type} : Event κ → Call
  | .Register _ => .Register
  | .Fatalf _ => .Fatalf
  | .StartNode => .StartNode
  | .Service => .Service
  | .StartMining _ _ => .StartMining

/-- How a function ends: it returns, or the process ends inside it with an exit status. -/
inductive End where
  | returned
  | exited (status : Int)
  deriving DecidableEq, Repr

/-- A run of `startNode`: the calls it made, in order, and how it ended. -/
structure Run (κ : Type) where
  trace : List (Event κ)
  outcome : End

/-- What the node stack answers: the error (or nil) of each of the three calls that
return one, and how the call `utils.StartNode(stack)` ends: it returns once the node
runs, or the process ends inside it (it reports a stack that does not start through
`utils.Fatalf`). `σ` is `*node.ServiceContext`, `ρ` the constructor's result
`(node.Service, error)`. -/
structure Stack (σ ρ : Type) where
  Register : (σ → ρ) → Option Error
  StartNode : End
  Service : Option Error
  StartMining : Int → String → Option Error

/-- The text `utils.Fatalf` writes before it ends the process. -/
def fatalMessage (format : String) (args : List String) : String :=
  Sprintf ("Fatal: " ++ format ++ "\n") args

/-- The composite literal `startNode` assigns to `eqConfig`. -/
def eqConfig (ctx : Context) : EtherQueryConfig :=
  { Project := ctx.GlobalString "gcpproject"
    Dataset := ctx.GlobalString "dataset"
    BatchInterval := Second * 15
    BatchSize := 500 }

/-- The function literal `startNode` passes to `stack.Register`; `New` is
`etherquery.New`. -/
def serviceConstructor {σ ρ : Type} (New : EtherQueryConfig → σ → ρ) (ctx : Context) :
    σ → ρ :=
  fun sctx => New (eqConfig ctx) sctx

/-- The function `startNode`. -/
def startNode {σ ρ : Type} (u : Utils) (New : EtherQueryConfig → σ → ρ)
    (stack : Stack σ ρ) (ctx : Context) : Run (σ → ρ) :=
  let constructor := serviceConstructor New ctx
  let t0 : List (Event (σ → ρ)) := [Event.Register constructor]
  match stack.Register constructor with
  | some err =>
    { trace := t0 ++
        [Event.Fatalf (fatalMessage "Failed to register the etherquery service: %v" [err])]
      outcome := End.exited 1 }
  | none =>
    let t1 := t0 ++ [Event.StartNode]
    match stack.StartNode with
    | End.exited status => { trace := t1, outcome := End.exited status }
    | End.returned =>
      let t2 := t1 ++ [Event.Service]
      match stack.Service with
      | some err =>
        { trace := t2 ++
            [Event.Fatalf (fatalMessage "ethereum service not running: %v" [err])]
          outcome := End.exited 1 }
      | none =>
        if ctx.GlobalBool u.MiningEnabledFlag then
          let threads := ctx.GlobalInt u.MinerThreadsFlag
          let gpus := ctx.GlobalString u.MiningGPUFlag
          let t3 := t2 ++ [Event.StartMining threads gpus]
          match stack.StartMining threads gpus with
          | some err =>
            { trace := t3 ++ [Event.Fatalf (fatalMessage "Failed to start mining: %v" [err])]
              outcome := End.exited 1 }
          | none => { trace := t3, outcome := End.returned }
        else
          { trace := t2, outcome := End.returned }

/-- The kinds of the calls of a run, in order. -/
def Run.calls {κ : Type} (r : Run κ) : List Call := r.trace.map Event.call

/-! ## `main` -/

/-- A call `main` makes on the operating system. -/
inductive SysCall where
  | FprintlnStderr (text : String)
  | Exit (status : Int)
  deriving DecidableEq, Repr

/-- How the call `app.Run(os.Args)` ends, seen from `main`: it returns its error (nil or
not), or the process ends inside it (the action reaches `utils.Fatalf`, say) and control
never comes back. -/
inductive AppRun where
  | returns (err : Option Error)
  | exited (status : Int)
  deriving DecidableEq, Repr

/-- The function `main`: the calls it makes itself after `app.Run`, and how it ends.
`fmt.Fprintln` writes its operand followed by a newline. -/
def main (run : AppRun) : List SysCall × End :=
  match run with
  | .exited status => ([], End.exited status)
  | .returns (some err) =>
    ([SysCall.FprintlnStderr (err ++ "\n"), SysCall.Exit 1], End.exited 1)
  | .returns none => ([], End.returned)

/-! ## `makeDefaultExtra` -/

/-- The two logger levels `makeDefaultExtra` names. -/
inductive Level where
  | Warn | Debug
  deriving DecidableEq, Repr

/-- An entry written to the log, with the level it was requested at. -/
structure LogEntry where
  level : Level
  text : String
  deriving DecidableEq, Repr

/-- The anonymous struct `clientInfo`. -/
structure ClientInfo where
  Version : Nat
  Name : String
  GoVersion : String
  Os : String
  deriving DecidableEq, Repr

/-- What `makeDefaultExtra` reads from outside `main.go`: the logger's verbosity test
`glog.V`, the constant `params.MaximumExtraDataSize` (a `*big.Int`), `runtime.Version()`,
`runtime.GOOS` and the encoder `rlp.EncodeToBytes` with its two results. -/
structure ExtraEnv where
  V : Level → Bool
  MaximumExtraDataSize : Int
  runtimeVersion : String
  GOOS : String
  EncodeToBytes : ClientInfo → Bytes × Option Error

/-- The method `Uint64` of `*big.Int`: the low 64 bits of the absolute value. -/
def bigUint64 (x : Int) : Nat := x.natAbs % 2 ^ 64

/-- A lower-case hexadecimal digit. -/
def hexDigit (n : Nat) : Char :=
  if n < 10 then Char.ofNat (48 + n) else Char.ofNat (87 + n)

/-- The verb `%x` on a byte slice: two hexadecimal digits for each byte. -/
def hexOfBytes : Bytes → String
  | none => ""
  | some bs => String.mk (bs.flatMap fun b => [hexDigit (b.toNat / 16), hexDigit (b.toNat % 16)])

/-- The call `glog.V(level).Infoln(operands...)` (and `Infof`, once formatted): an entry is
written only when the verbosity test is true.  `Infoln` puts a blank between operands
and a newline at the end. -/
def logIf (V : Level → Bool) (level : Level) (text : String) : List LogEntry :=
  if V level then [{ level := level, text := text }] else []

/-- The value `makeDefaultExtra` gives its variable `clientInfo`. -/
def clientInfo (env : ExtraEnv) : ClientInfo :=
  { Version := VersionMajor <<< 16 ||| VersionMinor <<< 8 ||| VersionPatch
    Name := ClientIdentifier
    GoVersion := env.runtimeVersion
    Os := env.GOOS }

/-- The function `makeDefaultExtra`: the entries it writes to the log and the slice it
returns.  `uint64(len(extra))` is `len(extra)`, a slice length being a non-negative
`int`. -/
def makeDefaultExtra (env : ExtraEnv) : List LogEntry × Bytes :=
  let extra := (env.EncodeToBytes (clientInfo env)).1
  let err := (env.EncodeToBytes (clientInfo env)).2
  let log1 :=
    match err with
    | some e => logIf env.V Level.Warn ("error setting canonical miner information: " ++ e ++ "\n")
    | none => []
  if len extra > bigUint64 env.MaximumExtraDataSize then
    let log2 := logIf env.V Level.Warn
      ("error setting canonical miner information: extra exceeds " ++
        toString env.MaximumExtraDataSize ++ "\n")
    let log3 := logIf env.V Level.Debug ("extra: " ++ hexOfBytes extra ++ "\n")
    (log1 ++ log2 ++ log3, none)
  else
    (log1, extra)

/-! ## The Batch Buffer -/

/-- Modelled from the spec: the Batch Buffer of the etherquery service, whose code is
not in the sources.  It accumulates the records appended to it, each with the time of
its `append`, oldest first. -/
structure BatchBuffer (α : Type) where
  entries : List (Int × α)

namespace BatchBuffer

/-- Modelled from the spec: the buffer a service starts with, holding nothing. -/
def empty {α : Type} : BatchBuffer α := { entries := [] }

/-- Modelled from the spec: `append(records for one block)`, at time `now`
(nanoseconds). -/
def append {α : Type} (b : BatchBuffer α) (records : List α) (now : Int) : BatchBuffer α :=
  { entries := b.entries ++ records.map fun r => (now, r) }

/-- Modelled from the spec: the accumulated record count. -/
def count {α : Type} (b : BatchBuffer α) : Nat := b.entries.length

/-- Modelled from the spec: the time the oldest buffered record was appended, if the
buffer holds a record. -/
def oldest {α : Type} (b : BatchBuffer α) : Option Int := b.entries.head?.map Prod.fst

/-- Modelled from the spec: `shouldFlush()`, checked at time `now`: true when the
accumulated record count has reached the configured batch size or the time since the
buffer's oldest unflushed record has reached the configured flush interval. -/
def shouldFlush {α : Type} (cfg : EtherQueryConfig) (b : BatchBuffer α) (now : Int) : Bool :=
  decide (cfg.BatchSize ≤ (b.count : Int)) ||
    match b.oldest with
    | some t => decide (cfg.BatchInterval ≤ now - t)
    | none => false

/-- Modelled from the spec: `drain()`, which empties the buffer and returns its
contents. -/
def drain {α : Type} (b : BatchBuffer α) : List α × BatchBuffer α :=
  (b.entries.map Prod.snd, empty)

end BatchBuffer

/-! ## Sample inputs -/

/-- The names go-ethereum gives the three mining flags. -/
def sampleUtils : Utils :=
  { MiningEnabledFlag := "mine", MinerThreadsFlag := "minerthreads", MiningGPUFlag := "minergpus" }

/-- A constructor that hands back the configuration it was given. -/
def sampleNew : EtherQueryConfig → Unit → EtherQueryConfig := fun cfg _ => cfg

/-- A context over the flags of `init` alone, with mining enabled on two threads. -/
def sampleContext (args : List (String × String)) : Context :=
  cliContext ownFlags args (fun name => name == "mine")
    (fun name => if name == "minerthreads" then 2 else 0)

/-- A node stack that refuses the registration. -/
def refusingStack : Stack Unit EtherQueryConfig :=
  { Register := fun _ => some "node running", StartNode := End.returned, Service := none,
    StartMining := fun _ _ => none }

/-- A node stack without the ethereum service. -/
def emptyStack : Stack Unit EtherQueryConfig :=
  { Register := fun _ => none, StartNode := End.returned, Service := some "unknown service",
    StartMining := fun _ _ => none }

/-- A node stack on which every call succeeds. -/
def healthyStack : Stack Unit EtherQueryConfig :=
  { Register := fun _ => none, StartNode := End.returned, Service := none,
    StartMining := fun _ _ => none }

/-- A node stack whose miner does not start. -/
def idleStack : Stack Unit EtherQueryConfig :=
  { Register := fun _ => none, StartNode := End.returned, Service := none,
    StartMining := fun _ _ => some "no etherbase" }

/-- An environment whose logger admits warnings and whose encoder returns 33 bytes. -/
def longEnv : ExtraEnv :=
  { V := fun level => level == Level.Warn
    MaximumExtraDataSize := 32
    runtimeVersion := "go1.7"
    GOOS := "linux"
    EncodeToBytes := fun _ => (some (List.replicate 33 0), none) }

/-- An environment whose logger admits warnings and whose encoder returns 3 bytes. -/
def plainEnv : ExtraEnv :=
  { V := fun level => level == Level.Warn
    MaximumExtraDataSize := 32
    runtimeVersion := "go1.7"
    GOOS := "linux"
    EncodeToBytes := fun _ => (some [1, 2, 3], none) }

/-- An environment whose logger admits warnings and whose encoder fails. -/
def failingEnv : ExtraEnv :=
  { V := fun level => level == Level.Warn
    MaximumExtraDataSize := 32
    runtimeVersion := "go1.7"
    GOOS := "linux"
    EncodeToBytes := fun _ => (none, some "rlp: type not supported") }

/-! ## Lemmas on `startNode` -/

section StartNode

variable {σ ρ : Type} (u : Utils) (New : EtherQueryConfig → σ → ρ) (stack : Stack σ ρ)
  (ctx : Context)

/-- The message of the registration failure. -/
theorem fatalMessage_register (err : String) :
    fatalMessage "Failed to register the etherquery service: %v" [err] =
      "Fatal: Failed to register the etherquery service: " ++ err ++ "\n" := by
  apply String.ext
  simp [fatalMessage, Sprintf, sprintfV]

/-- The message of the failed service lookup. -/
theorem fatalMessage_service (err : String) :
    fatalMessage "ethereum service not running: %v" [err] =
      "Fatal: ethereum service not running: " ++ err ++ "\n" := by
  apply String.ext
  simp [fatalMessage, Sprintf, sprintfV]

/-- The message of the mining failure. -/
theorem fatalMessage_mining (err : String) :
    fatalMessage "Failed to start mining: %v" [err] =
      "Fatal: Failed to start mining: " ++ err ++ "\n" := by
  apply String.ext
  simp [fatalMessage, Sprintf, sprintfV]

/-- The run when `stack.Register` returns an error. -/
theorem startNode_register_failed (err : Error)
    (h : stack.Register (serviceConstructor New ctx) = some err) :
    startNode u New stack ctx =
      { trace := [Event.Register (serviceConstructor New ctx),
          Event.Fatalf (fatalMessage "Failed to register the etherquery service: %v" [err])]
        outcome := End.exited 1 } := by
  simp [startNode, h]

/-- The run when the process ends inside `utils.StartNode`. -/
theorem startNode_start_failed (status : Int)
    (h : stack.Register (serviceConstructor New ctx) = none)
    (hn : stack.StartNode = End.exited status) :
    startNode u New stack ctx =
      { trace := [Event.Register (serviceConstructor New ctx), Event.StartNode]
        outcome := End.exited status } := by
  simp [startNode, h, hn]

/-- The run when `stack.Service` returns an error. -/
theorem startNode_service_failed (err : Error)
    (h : stack.Register (serviceConstructor New ctx) = none)
    (hn : stack.StartNode = End.returned) (hs : stack.Service = some err) :
    startNode u New stack ctx =
      { trace := [Event.Register (serviceConstructor New ctx), Event.StartNode, Event.Service,
          Event.Fatalf (fatalMessage "ethereum service not running: %v" [err])]
        outcome := End.exited 1 } := by
  simp [startNode, h, hn, hs]

/-- The run when mining is not enabled. -/
theorem startNode_no_mining
    (h : stack.Register (serviceConstructor New ctx) = none)
    (hn : stack.StartNode = End.returned)
    (hs : stack.Service = none) (hm : ctx.GlobalBool u.MiningEnabledFlag = false) :
    startNode u New stack ctx =
      { trace := [Event.Register (serviceConstructor New ctx), Event.StartNode, Event.Service]
        outcome := End.returned } := by
  simp [startNode, h, hn, hs, hm]

/-- The run when `StartMining` returns an error. -/
theorem startNode_mining_failed (err : Error)
    (h : stack.Register (serviceConstructor New ctx) = none)
    (hn : stack.StartNode = End.returned)
    (hs : stack.Service = none) (hm : ctx.GlobalBool u.MiningEnabledFlag = true)
    (he : stack.StartMining (ctx.GlobalInt u.MinerThreadsFlag)
      (ctx.GlobalString u.MiningGPUFlag) = some err) :
    startNode u New stack ctx =
      { trace := [Event.Register (serviceConstructor New ctx), Event.StartNode, Event.Service,
          Event.StartMining (ctx.GlobalInt u.MinerThreadsFlag) (ctx.GlobalString u.MiningGPUFlag),
          Event.Fatalf (fatalMessage "Failed to start mining: %v" [err])]
        outcome := End.exited 1 } := by
  simp [startNode, h, hn, hs, hm, he]

/-- The run when `StartMining` succeeds. -/
theorem startNode_mining_started
    (h : stack.Register (serviceConstructor New ctx) = none)
    (hn : stack.StartNode = End.returned)
    (hs : stack.Service = none) (hm : ctx.GlobalBool u.MiningEnabledFlag = true)
    (he : stack.StartMining (ctx.GlobalInt u.MinerThreadsFlag)
      (ctx.GlobalString u.MiningGPUFlag) = none) :
    startNode u New stack ctx =
      { trace := [Event.Register (serviceConstructor New ctx), Event.StartNode, Event.Service,
          Event.StartMining (ctx.GlobalInt u.MinerThreadsFlag) (ctx.GlobalString u.MiningGPUFlag)]
        outcome := End.returned } := by
  simp [startNode, h, hn, hs, hm, he]

/-- Every run starts with the registration, and registers nothing else. -/
theorem startNode_trace_head :
    ∃ rest, (startNode u New stack ctx).trace =
        Event.Register (serviceConstructor New ctx) :: rest ∧
      Call.Register ∉ rest.map Event.call := by
  cases h : stack.Register (serviceConstructor New ctx) with
  | some err => rw [startNode_register_failed u New stack ctx err h]; exact ⟨_, rfl, by simp [Event.call]⟩
  | none =>
    cases hn : stack.StartNode with
    | exited status =>
      rw [startNode_start_failed u New stack ctx status h hn]
      exact ⟨_, rfl, by simp [Event.call]⟩
    | returned =>
      cases hs : stack.Service with
      | some err =>
        rw [startNode_service_failed u New stack ctx err h hn hs]
        exact ⟨_, rfl, by simp [Event.call]⟩
      | none =>
        cases hm : ctx.GlobalBool u.MiningEnabledFlag with
        | false =>
          rw [startNode_no_mining u New stack ctx h hn hs hm]
          exact ⟨_, rfl, by simp [Event.call]⟩
        | true =>
          cases he : stack.StartMining (ctx.GlobalInt u.MinerThreadsFlag)
              (ctx.GlobalString u.MiningGPUFlag) with
          | some err =>
            rw [startNode_mining_failed u New stack ctx err h hn hs hm he]
            exact ⟨_, rfl, by simp [Event.call]⟩
          | none =>
            rw [startNode_mining_started u New stack ctx h hn hs hm he]
            exact ⟨_, rfl, by simp [Event.call]⟩

end StartNode

/-! ## The claims on `startNode` and its configuration -/

/-- C1: for every context passed to `startNode`, the configuration handed to the
etherquery service (the one the registered constructor passes to `etherquery.New`) has
batch flush interval exactly 15 seconds (15 000 000 000 ns) and batch flush size exactly
500, and both are the same for any two contexts, whatever their flags. -/
theorem startNode_batch_constants {σ ρ : Type} (u : Utils)
    (New : EtherQueryConfig → σ → ρ) (stack : Stack σ ρ) (ctx other : Context) :
    (∃ rest, (startNode u New stack ctx).trace =
        Event.Register (fun sctx => New (eqConfig ctx) sctx) :: rest) ∧
      (eqConfig ctx).BatchInterval = 15 * Second ∧
      (eqConfig ctx).BatchInterval = 15000000000 ∧
      (eqConfig ctx).BatchSize = 500 ∧
      (eqConfig other).BatchInterval = (eqConfig ctx).BatchInterval ∧
      (eqConfig other).BatchSize = (eqConfig ctx).BatchSize := by
  refine ⟨?_, ?_, ?_, rfl, rfl, rfl⟩
  · obtain ⟨rest, h, _⟩ := startNode_trace_head u New stack ctx
    exact ⟨rest, h⟩
  · simp [eqConfig, Second]
  · simp [eqConfig, Second]

/-- C2: `startNode` registers the etherquery constructor exactly once, as its first
call, so before the node is started; when the registration returns an error the run is
the registration followed by `Fatalf` and the process ends with status 1, without
`utils.StartNode`, the service lookup or `StartMining`; and for every service context
the registered constructor returns `etherquery.New` applied to the configuration built
by `startNode` and that context. -/
theorem startNode_registers_once {σ ρ : Type} (u : Utils)
    (New : EtherQueryConfig → σ → ρ) (stack : Stack σ ρ) (ctx : Context) :
    (startNode u New stack ctx).calls.count Call.Register = 1 ∧
      (∃ rest, (startNode u New stack ctx).trace =
          Event.Register (serviceConstructor New ctx) :: rest ∧
        Call.Register ∉ rest.map Event.call) ∧
      (∀ err, stack.Register (serviceConstructor New ctx) = some err →
        (startNode u New stack ctx).calls = [Call.Register, Call.Fatalf] ∧
        (startNode u New stack ctx).outcome = End.exited 1 ∧
        Call.StartNode ∉ (startNode u New stack ctx).calls ∧
        Call.Service ∉ (startNode u New stack ctx).calls ∧
        Call.StartMining ∉ (startNode u New stack ctx).calls) ∧
      (∀ sctx, serviceConstructor New ctx sctx = New (eqConfig ctx) sctx) := by
  refine ⟨?_, startNode_trace_head u New stack ctx, ?_, fun _ => rfl⟩
  · obtain ⟨rest, h, hrest⟩ := startNode_trace_head u New stack ctx
    simp only [Run.calls, h, List.map_cons, Event.call]
    rw [List.count_cons_self, List.count_eq_zero_of_not_mem hrest]
  · intro err h
    rw [startNode_register_failed u New stack ctx err h]
    simp [Run.calls, Event.call]

/-- Witness for C2: on a stack that refuses the registration the run is the
registration and the fatal message, and the process ends with status 1. -/
theorem startNode_registers_once_witness :
    (startNode sampleUtils sampleNew refusingStack (sampleContext [])).calls =
        [Call.Register, Call.Fatalf] ∧
      (startNode sampleUtils sampleNew refusingStack (sampleContext [])).outcome =
        End.exited 1 :=
  let h := (startNode_registers_once sampleUtils sampleNew refusingStack
    (sampleContext [])).2.2.1 "node running" rfl
  ⟨h.1, h.2.1⟩

/-! ## Lemmas on `init` and the flags -/

/-- With an empty `gitCommit` the version is `Version`. -/
theorem init_empty (utilsFlags : List Flag) :
    init utilsFlags [] =
      .ok { nodeNameVersion := goBytes Version, appFlags := utilsFlags ++ ownFlags } := by
  simp [init]

/-- With at least 8 bytes of `gitCommit` the version carries the first 8. -/
theorem init_long (utilsFlags : List Flag) (gitCommit : GoString)
    (h : 8 ≤ gitCommit.length) :
    init utilsFlags gitCommit =
      .ok { nodeNameVersion := goBytes Version ++ goBytes "-" ++ gitCommit.take 8
            appFlags := utilsFlags ++ ownFlags } := by
  have hne : gitCommit ≠ [] := by
    intro e
    simp [e] at h
  simp [init, hne, sliceTo, h]

/-- With 1 to 7 bytes of `gitCommit` the slice expression panics. -/
theorem init_short (utilsFlags : List Flag) (gitCommit : GoString)
    (h0 : 0 < gitCommit.length) (h : gitCommit.length < 8) :
    init utilsFlags gitCommit = .error (Panic.sliceBounds 8 gitCommit.length) := by
  have hne : gitCommit ≠ [] := by
    intro e
    simp [e] at h0
  have hlt : ¬ 8 ≤ gitCommit.length := by omega
  simp [init, hne, sliceTo, hlt]

/-- When `init` completes, the flag list is the library's flags followed by its own. -/
theorem init_appFlags (utilsFlags : List Flag) (gitCommit : GoString) (g : Globals)
    (h : init utilsFlags gitCommit = .ok g) : g.appFlags = utilsFlags ++ ownFlags := by
  rcases Nat.lt_or_ge gitCommit.length 8 with hlt | hge
  · rcases Nat.eq_zero_or_pos gitCommit.length with h0 | h0
    · have he : gitCommit = [] := List.length_eq_zero.mp h0
      subst he
      rw [init_empty] at h
      cases h
      rfl
    · rw [init_short utilsFlags gitCommit h0 hlt] at h
      cases h
  · rw [init_long utilsFlags gitCommit hge] at h
    cases h
    rfl

/-- No flag of the library's own list has the name, so the lookup finds the
declaration `init` appends. -/
theorem find_own_flag (utilsFlags : List Flag) (name : String) (f : Flag)
    (hu : ∀ g ∈ utilsFlags, g.name ≠ name)
    (hf : ownFlags.find? (fun g => g.name == name) = some f) :
    (utilsFlags ++ ownFlags).find? (fun g => g.name == name) = some f := by
  have hnone : utilsFlags.find? (fun g => g.name == name) = none := by
    rw [List.find?_eq_none]
    intro g hg
    simpa using hu g hg
  rw [List.find?_append, hnone]
  simpa using hf

/-- A name the command line does not give has no value text there. -/
theorem lookup_not_given (args : List (String × String)) (name : String)
    (h : ∀ p ∈ args, p.1 ≠ name) : args.reverse.lookup name = none := by
  rw [List.lookup_eq_none_iff]
  intro p hp
  have hne : name ≠ p.1 := fun e => h p (List.mem_reverse.mp hp) e.symm
  simpa using hne

/-- A flag given on the command line does not change the lookup of another name. -/
theorem lookupGlobalString_other (flags : List Flag) (before after : List (String × String))
    (name value n : String) (hne : n ≠ name) :
    lookupGlobalString flags (before ++ (name, value) :: after) n =
      lookupGlobalString flags (before ++ after) n := by
  have hb : (n == name) = false := beq_false_of_ne hne
  simp [lookupGlobalString, List.reverse_append, List.lookup_append, List.lookup, hb]

/-- C3: for every context the configuration `startNode` builds has Project equal to the
global string flag "gcpproject" and Dataset equal to the global string flag "dataset";
over the flags `init` declares, a flag the command line does not give has its declared
default, "etherquery" for the project and "ethereum" for the dataset; and the
configuration is the same for two contexts that agree on these two flags, so giving
any other flag on the command line, "blocksrev" in particular, leaves it as it is. -/
theorem eqConfig_from_flags (ctx : Context) :
    (eqConfig ctx).Project = ctx.GlobalString "gcpproject" ∧
      (eqConfig ctx).Dataset = ctx.GlobalString "dataset" ∧
      (∀ (utilsFlags : List Flag) (gitCommit : GoString) (g : Globals)
          (args : List (String × String)) (gb : String → Bool) (gi : String → Int),
        init utilsFlags gitCommit = .ok g →
        (∀ f ∈ utilsFlags, f.name ≠ "gcpproject" ∧ f.name ≠ "dataset") →
        ((∀ p ∈ args, p.1 ≠ "gcpproject") →
          (eqConfig (cliContext g.appFlags args gb gi)).Project = "etherquery") ∧
        ((∀ p ∈ args, p.1 ≠ "dataset") →
          (eqConfig (cliContext g.appFlags args gb gi)).Dataset = "ethereum")) ∧
      (∀ other : Context,
        other.GlobalString "gcpproject" = ctx.GlobalString "gcpproject" →
        other.GlobalString "dataset" = ctx.GlobalString "dataset" →
        eqConfig other = eqConfig ctx) ∧
      (∀ (flags : List Flag) (before after : List (String × String)) (name value : String)
          (gb gb2 : String → Bool) (gi gi2 : String → Int),
        name ≠ "gcpproject" → name ≠ "dataset" →
        eqConfig (cliContext flags (before ++ (name, value) :: after) gb gi) =
          eqConfig (cliContext flags (before ++ after) gb2 gi2)) ∧
      (∀ (flags : List Flag) (before after : List (String × String)) (rev : String)
          (gb gb2 : String → Bool) (gi gi2 : String → Int),
        eqConfig (cliContext flags (before ++ ("blocksrev", rev) :: after) gb gi) =
          eqConfig (cliContext flags (before ++ after) gb2 gi2)) := by
  have general : ∀ (flags : List Flag) (before after : List (String × String))
      (name value : String) (gb gb2 : String → Bool) (gi gi2 : String → Int),
      name ≠ "gcpproject" → name ≠ "dataset" →
      eqConfig (cliContext flags (before ++ (name, value) :: after) gb gi) =
        eqConfig (cliContext flags (before ++ after) gb2 gi2) := by
    intro flags before after name value gb gb2 gi gi2 hp hd
    have key : ∀ n : String, n ≠ name →
        lookupGlobalString flags (before ++ (name, value) :: after) n =
          lookupGlobalString flags (before ++ after) n :=
      fun n hne => lookupGlobalString_other flags before after name value n hne
    simp [eqConfig, cliContext, key "gcpproject" (Ne.symm hp), key "dataset" (Ne.symm hd)]
  refine ⟨rfl, rfl, ?_, ?_, general, ?_⟩
  · intro utilsFlags gitCommit g args gb gi hinit hu
    have hflags : g.appFlags = utilsFlags ++ ownFlags :=
      init_appFlags utilsFlags gitCommit g hinit
    constructor
    · intro hargs
      have hfind := find_own_flag utilsFlags "gcpproject"
        (Flag.StringFlag "gcpproject" "GCP project ID" "etherquery")
        (fun f hf => (hu f hf).1) (by decide)
      simp [eqConfig, cliContext, lookupGlobalString, hflags, hfind,
        lookup_not_given args "gcpproject" hargs, Flag.defaultText]
    · intro hargs
      have hfind := find_own_flag utilsFlags "dataset"
        (Flag.StringFlag "dataset" "BigQuery dataset ID" "ethereum")
        (fun f hf => (hu f hf).2) (by decide)
      simp [eqConfig, cliContext, lookupGlobalString, hflags, hfind,
        lookup_not_given args "dataset" hargs, Flag.defaultText]
  · intro other h1 h2
    simp [eqConfig, h1, h2]
  · intro flags before after rev gb gb2 gi gi2
    exact general flags before after "blocksrev" rev gb gb2 gi gi2 (by decide) (by decide)

/-- Witness for C3: with no flag on the command line the configuration carries the two
declared defaults. -/
theorem eqConfig_from_flags_witness :
    (eqConfig (cliContext ownFlags [] (fun _ => false) (fun _ => 0))).Project = "etherquery" ∧
      (eqConfig (cliContext ownFlags [] (fun _ => false) (fun _ => 0))).Dataset = "ethereum" :=
  let h := (eqConfig_from_flags (sampleContext [])).2.2.1 [] []
    { nodeNameVersion := goBytes Version, appFlags := ownFlags } []
    (fun _ => false) (fun _ => 0) rfl (by simp)
  ⟨h.1 (by simp), h.2 (by simp)⟩

/-- C7: once the registration has succeeded, the node has been started
(`utils.StartNode` has returned) and the ethereum service has been retrieved without
error, `startNode` calls `StartMining` if and only if the mining-enabled flag is true,
and it calls it in no other run; the call comes after `utils.StartNode` and the service
lookup, with the values of the miner-threads and mining-GPU flags as its arguments; and
when the service lookup fails, `startNode` ends the process through `Fatalf` without a
call to `StartMining`. -/
theorem startNode_startMining_iff {σ ρ : Type} (u : Utils)
    (New : EtherQueryConfig → σ → ρ) (stack : Stack σ ρ) (ctx : Context) :
    (stack.Register (serviceConstructor New ctx) = none →
        stack.StartNode = End.returned → stack.Service = none →
        (Call.StartMining ∈ (startNode u New stack ctx).calls ↔
          ctx.GlobalBool u.MiningEnabledFlag = true)) ∧
      (Call.StartMining ∈ (startNode u New stack ctx).calls →
        stack.Register (serviceConstructor New ctx) = none ∧
        stack.StartNode = End.returned ∧ stack.Service = none ∧
        ctx.GlobalBool u.MiningEnabledFlag = true ∧
        ∃ tail, (startNode u New stack ctx).trace =
            [Event.Register (serviceConstructor New ctx), Event.StartNode, Event.Service,
              Event.StartMining (ctx.GlobalInt u.MinerThreadsFlag)
                (ctx.GlobalString u.MiningGPUFlag)] ++ tail ∧
          ∀ e ∈ tail, e.call = Call.Fatalf) ∧
      (∀ err, stack.Service = some err →
        Call.StartMining ∉ (startNode u New stack ctx).calls ∧
        (startNode u New stack ctx).outcome ≠ End.returned) ∧
      (∀ err, stack.Register (serviceConstructor New ctx) = none →
        stack.StartNode = End.returned → stack.Service = some err →
        (startNode u New stack ctx).calls =
          [Call.Register, Call.StartNode, Call.Service, Call.Fatalf] ∧
        (startNode u New stack ctx).outcome = End.exited 1) := by
  cases h : stack.Register (serviceConstructor New ctx) with
  | some err =>
    rw [startNode_register_failed u New stack ctx err h]
    simp [Run.calls, Event.call]
  | none =>
    cases hn : stack.StartNode with
    | exited status =>
      rw [startNode_start_failed u New stack ctx status h hn]
      simp [Run.calls, Event.call]
    | returned =>
      cases hs : stack.Service with
      | some err =>
        rw [startNode_service_failed u New stack ctx err h hn hs]
        simp [Run.calls, Event.call]
      | none =>
        cases hm : ctx.GlobalBool u.MiningEnabledFlag with
        | false =>
          rw [startNode_no_mining u New stack ctx h hn hs hm]
          simp [Run.calls, Event.call]
        | true =>
          cases he : stack.StartMining (ctx.GlobalInt u.MinerThreadsFlag)
              (ctx.GlobalString u.MiningGPUFlag) with
          | some err =>
            rw [startNode_mining_failed u New stack ctx err h hn hs hm he]
            simp [Run.calls, Event.call]
          | none =>
            rw [startNode_mining_started u New stack ctx h hn hs hm he]
            simp [Run.calls, Event.call]

/-- Witness for C7: on a stack where every call succeeds and with mining enabled,
`StartMining` is called; on a stack without the ethereum service the run is the
registration, the start, the lookup and the fatal message. -/
theorem startNode_startMining_iff_witness :
    Call.StartMining ∈
        (startNode sampleUtils sampleNew healthyStack (sampleContext [])).calls ∧
      (startNode sampleUtils sampleNew emptyStack (sampleContext [])).calls =
        [Call.Register, Call.StartNode, Call.Service, Call.Fatalf] :=
  ⟨((startNode_startMining_iff sampleUtils sampleNew healthyStack (sampleContext [])).1
      rfl rfl rfl).2 rfl,
    ((startNode_startMining_iff sampleUtils sampleNew emptyStack (sampleContext [])).2.2.2
      "unknown service" rfl rfl rfl).1⟩

/-! ## The claim on `main` -/

/-- C5: `main` itself ends the process, with `os.Exit(1)`, if and only if `app.Run`
returns an error that is not nil, and it then has written the error to standard error
before the exit; when `app.Run` returns nil, `main` returns without a call to
`os.Exit`; and `main` never exits with another status. -/
theorem main_exit (run : AppRun) :
    (SysCall.Exit 1 ∈ (main run).1 ↔ ∃ err, run = AppRun.returns (some err)) ∧
      (∀ err, run = AppRun.returns (some err) →
        main run = ([SysCall.FprintlnStderr (err ++ "\n"), SysCall.Exit 1], End.exited 1)) ∧
      (run = AppRun.returns none → main run = ([], End.returned)) ∧
      (∀ status, SysCall.Exit status ∈ (main run).1 → status = 1) := by
  rcases run with (_ | err) | status
  · simp [main]
  · simp [main]
  · simp [main]

/-- Witness for C5: an error returned by `app.Run` is written and the process exits
with status 1; a nil error lets `main` return. -/
theorem main_exit_witness :
    main (AppRun.returns (some "flag provided but not defined: -x")) =
        ([SysCall.FprintlnStderr "flag provided but not defined: -x\n", SysCall.Exit 1],
          End.exited 1) ∧
      main (AppRun.returns none) = ([], End.returned) :=
  ⟨(main_exit (AppRun.returns (some "flag provided but not defined: -x"))).2.1 _ rfl,
    (main_exit (AppRun.returns none)).2.2.1 rfl⟩

/-! ## The claims on `makeDefaultExtra` -/

/-- The result of `makeDefaultExtra`, by the length test. -/
theorem makeDefaultExtra_result (env : ExtraEnv) :
    (makeDefaultExtra env).2 =
      if len (env.EncodeToBytes (clientInfo env)).1 > bigUint64 env.MaximumExtraDataSize
      then none else (env.EncodeToBytes (clientInfo env)).1 := by
  simp only [makeDefaultExtra]
  split <;> rfl

/-- The log of `makeDefaultExtra`, by the error and the length test. -/
theorem makeDefaultExtra_log (env : ExtraEnv) :
    (makeDefaultExtra env).1 =
      (match (env.EncodeToBytes (clientInfo env)).2 with
        | some e => logIf env.V Level.Warn
            ("error setting canonical miner information: " ++ e ++ "\n")
        | none => []) ++
      if len (env.EncodeToBytes (clientInfo env)).1 > bigUint64 env.MaximumExtraDataSize
      then logIf env.V Level.Warn
          ("error setting canonical miner information: extra exceeds " ++
            toString env.MaximumExtraDataSize ++ "\n") ++
        logIf env.V Level.Debug
          ("extra: " ++ hexOfBytes (env.EncodeToBytes (clientInfo env)).1 ++ "\n")
      else [] := by
  simp only [makeDefaultExtra]
  split <;> simp

/-- C6: with the logger admitting warnings (`glog.V(logger.Warn)` is true: the state the
logger is in when `makeDefaultExtra` runs, `main.go` declaring no verbosity flag and
setting up no logger), an RLP encoding error and an over-long extra-data value each
produce a warning log entry in `makeDefaultExtra`; in `startNode` a registration
failure, a missing ethereum service and a `StartMining` failure each produce a `Fatalf`
message that contains the error and end the process; and `startNode` returns only when
every error it observed was nil. -/
theorem diagnostics_on_error_paths {σ ρ : Type} (env : ExtraEnv) (u : Utils)
    (New : EtherQueryConfig → σ → ρ) (stack : Stack σ ρ) (ctx : Context) :
    (env.V Level.Warn = true →
        (∀ e, (env.EncodeToBytes (clientInfo env)).2 = some e →
          { level := Level.Warn
            text := "error setting canonical miner information: " ++ e ++ "\n" } ∈
            (makeDefaultExtra env).1) ∧
        (len (env.EncodeToBytes (clientInfo env)).1 > bigUint64 env.MaximumExtraDataSize →
          { level := Level.Warn
            text := "error setting canonical miner information: extra exceeds " ++
              toString env.MaximumExtraDataSize ++ "\n" } ∈ (makeDefaultExtra env).1)) ∧
      (∀ err, stack.Register (serviceConstructor New ctx) = some err →
        Event.Fatalf ("Fatal: Failed to register the etherquery service: " ++ err ++ "\n") ∈
          (startNode u New stack ctx).trace ∧
        (startNode u New stack ctx).outcome = End.exited 1) ∧
      (∀ err, stack.Register (serviceConstructor New ctx) = none →
        stack.StartNode = End.returned → stack.Service = some err →
        Event.Fatalf ("Fatal: ethereum service not running: " ++ err ++ "\n") ∈
          (startNode u New stack ctx).trace ∧
        (startNode u New stack ctx).outcome = End.exited 1) ∧
      (∀ err, stack.Register (serviceConstructor New ctx) = none →
        stack.StartNode = End.returned →
        stack.Service = none → ctx.GlobalBool u.MiningEnabledFlag = true →
        stack.StartMining (ctx.GlobalInt u.MinerThreadsFlag)
          (ctx.GlobalString u.MiningGPUFlag) = some err →
        Event.Fatalf ("Fatal: Failed to start mining: " ++ err ++ "\n") ∈
          (startNode u New stack ctx).trace ∧
        (startNode u New stack ctx).outcome = End.exited 1) ∧
      ((startNode u New stack ctx).outcome = End.returned →
        Call.Fatalf ∉ (startNode u New stack ctx).calls ∧
        stack.Register (serviceConstructor New ctx) = none ∧
        stack.StartNode = End.returned ∧ stack.Service = none ∧
        (ctx.GlobalBool u.MiningEnabledFlag = true →
          stack.StartMining (ctx.GlobalInt u.MinerThreadsFlag)
            (ctx.GlobalString u.MiningGPUFlag) = none)) := by
  refine ⟨?_, ?_, ?_, ?_, ?_⟩
  · intro hV
    constructor
    · intro e he
      rw [makeDefaultExtra_log, he]
      simp [logIf, hV]
    · intro hlen
      rw [makeDefaultExtra_log, if_pos hlen]
      simp [logIf, hV]
  · intro err h
    rw [startNode_register_failed u New stack ctx err h, fatalMessage_register]
    simp
  · intro err h hn hs
    rw [startNode_service_failed u New stack ctx err h hn hs, fatalMessage_service]
    simp
  · intro err h hn hs hm he
    rw [startNode_mining_failed u New stack ctx err h hn hs hm he, fatalMessage_mining]
    simp
  · intro hret
    cases h : stack.Register (serviceConstructor New ctx) with
    | some err =>
      rw [startNode_register_failed u New stack ctx err h] at hret
      cases hret
    | none =>
      cases hn : stack.StartNode with
      | exited status =>
        rw [startNode_start_failed u New stack ctx status h hn] at hret
        cases hret
      | returned =>
        cases hs : stack.Service with
        | some err =>
          rw [startNode_service_failed u New stack ctx err h hn hs] at hret
          cases hret
        | none =>
          cases hm : ctx.GlobalBool u.MiningEnabledFlag with
          | false =>
            rw [startNode_no_mining u New stack ctx h hn hs hm]
            simp [Run.calls, Event.call]
          | true =>
            cases he : stack.StartMining (ctx.GlobalInt u.MinerThreadsFlag)
                (ctx.GlobalString u.MiningGPUFlag) with
            | some err =>
              rw [startNode_mining_failed u New stack ctx err h hn hs hm he] at hret
              cases hret
            | none =>
              rw [startNode_mining_started u New stack ctx h hn hs hm he]
              simp [Run.calls, Event.call]

/-- Witness for C6: with warnings admitted, a failing encoder and a 33-byte encoding
each leave their warning in the log; a refused registration, a missing service and a
miner that does not start each leave their fatal message in the trace. -/
theorem diagnostics_on_error_paths_witness :
    { level := Level.Warn
      text := "error setting canonical miner information: rlp: type not supported\n" } ∈
        (makeDefaultExtra failingEnv).1 ∧
      { level := Level.Warn
        text := "error setting canonical miner information: extra exceeds 32\n" } ∈
        (makeDefaultExtra longEnv).1 ∧
      Event.Fatalf "Fatal: Failed to register the etherquery service: node running\n" ∈
        (startNode sampleUtils sampleNew refusingStack (sampleContext [])).trace ∧
      Event.Fatalf "Fatal: ethereum service not running: unknown service\n" ∈
        (startNode sampleUtils sampleNew emptyStack (sampleContext [])).trace ∧
      Event.Fatalf "Fatal: Failed to start mining: no etherbase\n" ∈
        (startNode sampleUtils sampleNew idleStack (sampleContext [])).trace :=
  ⟨((diagnostics_on_error_paths failingEnv sampleUtils sampleNew refusingStack
      (sampleContext [])).1 rfl).1 "rlp: type not supported" rfl,
    ((diagnostics_on_error_paths longEnv sampleUtils sampleNew refusingStack
      (sampleContext [])).1 rfl).2 (by decide),
    ((diagnostics_on_error_paths failingEnv sampleUtils sampleNew refusingStack
      (sampleContext [])).2.1 "node running" rfl).1,
    ((diagnostics_on_error_paths failingEnv sampleUtils sampleNew emptyStack
      (sampleContext [])).2.2.1 "unknown service" rfl rfl rfl).1,
    ((diagnostics_on_error_paths failingEnv sampleUtils sampleNew idleStack
      (sampleContext [])).2.2.2.1 "no etherbase" rfl rfl rfl rfl rfl).1⟩

/-- C8: whatever `rlp.EncodeToBytes` returns (any byte slice, with or without an
error), for a maximum extra-data size that is a non-negative 64-bit value (it is 32),
`makeDefaultExtra` returns a slice no longer than `params.MaximumExtraDataSize`: the
encoding itself when its length is within the limit, and nil when it exceeds it. -/
theorem makeDefaultExtra_bounded (env : ExtraEnv)
    (h0 : 0 ≤ env.MaximumExtraDataSize) (h64 : env.MaximumExtraDataSize < 2 ^ 64) :
    (len (makeDefaultExtra env).2 : Int) ≤ env.MaximumExtraDataSize ∧
      ((len (env.EncodeToBytes (clientInfo env)).1 : Int) ≤ env.MaximumExtraDataSize →
        (makeDefaultExtra env).2 = (env.EncodeToBytes (clientInfo env)).1) ∧
      (env.MaximumExtraDataSize < (len (env.EncodeToBytes (clientInfo env)).1 : Int) →
        (makeDefaultExtra env).2 = none) := by
  have hb : (bigUint64 env.MaximumExtraDataSize : Int) = env.MaximumExtraDataSize := by
    unfold bigUint64
    have hlt : env.MaximumExtraDataSize.natAbs < 2 ^ 64 := by omega
    rw [Nat.mod_eq_of_lt hlt]
    omega
  rw [makeDefaultExtra_result]
  refine ⟨?_, ?_, ?_⟩
  · split
    · simpa [len] using h0
    · omega
  · intro h
    rw [if_neg (by omega)]
  · intro h
    rw [if_pos (by omega)]

/-- Witness for C8: a three-byte encoding under the limit of 32 is returned as it
is. -/
theorem makeDefaultExtra_bounded_witness :
    (len (makeDefaultExtra plainEnv).2 : Int) ≤ 32 ∧
      (makeDefaultExtra plainEnv).2 = some [1, 2, 3] :=
  let h := makeDefaultExtra_bounded plainEnv (by decide) (by decide)
  ⟨h.1, h.2.1 (by decide)⟩

/-! ## The claim on `init` -/

/-- C9: for every `gitCommit`, `init` computes `nodeNameVersion` so: `Version`
("1.5.0-unstable") when `gitCommit` is empty; `Version`, "-" and the first 8 bytes of
`gitCommit` when it has at least 8 bytes; the slice `gitCommit[:8]` is in range exactly
when `gitCommit` has at least 8 bytes, so with 1 to 7 bytes `init` ends in the
out-of-range panic and produces no value. -/
theorem init_nodeNameVersion (utilsFlags : List Flag) (gitCommit : GoString) :
    Version = "1.5.0-unstable" ∧
      (gitCommit = [] →
        (init utilsFlags gitCommit).map Globals.nodeNameVersion = .ok (goBytes Version)) ∧
      (8 ≤ gitCommit.length →
        (init utilsFlags gitCommit).map Globals.nodeNameVersion =
          .ok (goBytes Version ++ goBytes "-" ++ gitCommit.take 8)) ∧
      ((sliceTo gitCommit 8).isSome = true ↔ 8 ≤ gitCommit.length) ∧
      (0 < gitCommit.length → gitCommit.length < 8 →
        init utilsFlags gitCommit = .error (Panic.sliceBounds 8 gitCommit.length)) := by
  refine ⟨rfl, ?_, ?_, ?_, init_short utilsFlags gitCommit⟩
  · intro h
    subst h
    rw [init_empty]
    rfl
  · intro h
    rw [init_long utilsFlags gitCommit h]
    rfl
  · unfold sliceTo
    split <;> simp [*]

/-- Witness for C9: a 16-byte commit gives the version with its first 8 bytes, a 3-byte
commit the panic. -/
theorem init_nodeNameVersion_witness :
    (init [] (goBytes "0123456789abcdef")).map Globals.nodeNameVersion =
        .ok (goBytes "1.5.0-unstable-01234567") ∧
      init [] (goBytes "abc") = .error (Panic.sliceBounds 8 3) :=
  ⟨(init_nodeNameVersion [] (goBytes "0123456789abcdef")).2.2.1 (by decide),
    (init_nodeNameVersion [] (goBytes "abc")).2.2.2.2 (by decide) (by decide)⟩

/-! ## The claim on the Batch Buffer -/

/-- Appending adds the number of appended records to the count. -/
theorem BatchBuffer.count_append {α : Type} (b : BatchBuffer α) (records : List α)
    (now : Int) : (b.append records now).count = b.count + records.length := by
  simp [BatchBuffer.append, BatchBuffer.count]

/-- The empty buffer holds no record. -/
theorem BatchBuffer.count_empty {α : Type} : (BatchBuffer.empty : BatchBuffer α).count = 0 :=
  rfl

/-- After a first append of at least one record, the oldest record has its time. -/
theorem BatchBuffer.oldest_first_append {α : Type} (n : Nat) (r : α) (now : Int) :
    (BatchBuffer.empty.append (List.replicate (n + 1) r) now).oldest = some now := by
  simp [BatchBuffer.append, BatchBuffer.empty, BatchBuffer.oldest, List.replicate_succ]

/-- A later append leaves the oldest record the oldest. -/
theorem BatchBuffer.oldest_append {α : Type} (b : BatchBuffer α) (records : List α)
    (t now : Int) (h : b.oldest = some t) : (b.append records now).oldest = some t := by
  unfold BatchBuffer.oldest at h
  unfold BatchBuffer.oldest BatchBuffer.append
  cases hb : b.entries with
  | nil => simp [hb] at h
  | cons e es =>
    rw [hb] at h
    simpa using h

/-- The check after a first append of `n + 1` records at time `t`. -/
theorem BatchBuffer.shouldFlush_first_append {α : Type} (cfg : EtherQueryConfig) (n : Nat)
    (r : α) (t now : Int) :
    BatchBuffer.shouldFlush cfg (BatchBuffer.empty.append (List.replicate (n + 1) r) t) now =
      (decide (cfg.BatchSize ≤ ((n + 1 : Nat) : Int)) ||
        decide (cfg.BatchInterval ≤ now - t)) := by
  unfold BatchBuffer.shouldFlush
  rw [BatchBuffer.oldest_first_append, BatchBuffer.count_append, BatchBuffer.count_empty,
    List.length_replicate, Nat.zero_add]

/-- The check after a second append, of `records` at time `t2`. -/
theorem BatchBuffer.shouldFlush_second_append {α : Type} (cfg : EtherQueryConfig) (n : Nat)
    (r : α) (records : List α) (t t2 now : Int) :
    BatchBuffer.shouldFlush cfg
        ((BatchBuffer.empty.append (List.replicate (n + 1) r) t).append records t2) now =
      (decide (cfg.BatchSize ≤ ((n + 1 + records.length : Nat) : Int)) ||
        decide (cfg.BatchInterval ≤ now - t)) := by
  unfold BatchBuffer.shouldFlush
  rw [BatchBuffer.oldest_append _ records t t2 (BatchBuffer.oldest_first_append n r t),
    BatchBuffer.count_append, BatchBuffer.count_append, BatchBuffer.count_empty,
    List.length_replicate, Nat.zero_add]

/-- C4: for every buffer state and every check time, `shouldFlush` is true if and only
if the accumulated record count has reached the configured batch size or the time since
the oldest buffered record has reached the configured flush interval.  With the
configuration `startNode` builds (size 500, interval 15 s): 499 records appended at t=0
and checked at t=10s give false; once the 500th is appended at t=10s the check gives
true; with only 10 records, appended at t=0, a check at t=15.1s gives true. -/
theorem shouldFlush_iff {α : Type} (cfg : EtherQueryConfig) (b : BatchBuffer α) (now : Int)
    (ctx : Context) (r : α) :
    (BatchBuffer.shouldFlush cfg b now = true ↔
        (cfg.BatchSize ≤ (b.count : Int) ∨
          ∃ t, b.oldest = some t ∧ cfg.BatchInterval ≤ now - t)) ∧
      BatchBuffer.shouldFlush (eqConfig ctx)
        (BatchBuffer.empty.append (List.replicate 499 r) 0) (10 * Second) = false ∧
      BatchBuffer.shouldFlush (eqConfig ctx)
        ((BatchBuffer.empty.append (List.replicate 499 r) 0).append [r] (10 * Second))
        (10 * Second) = true ∧
      BatchBuffer.shouldFlush (eqConfig ctx)
        (BatchBuffer.empty.append (List.replicate 10 r) 0) 15100000000 = true := by
  refine ⟨?_, ?_, ?_, ?_⟩
  · unfold BatchBuffer.shouldFlush
    cases b.oldest <;> simp
  · exact (BatchBuffer.shouldFlush_first_append (eqConfig ctx) 498 r 0 (10 * Second)).trans
      (by simp [eqConfig, Second])
  · exact (BatchBuffer.shouldFlush_second_append (eqConfig ctx) 498 r [r] 0 (10 * Second)
      (10 * Second)).trans (by simp [eqConfig, Second])
  · exact (BatchBuffer.shouldFlush_first_append (eqConfig ctx) 9 r 0 15100000000).trans
      (by simp [eqConfig, Second])

end Etherquery
